import Mathlib

/-!
# GrapeOS core: shallow embedding and verification

This file embeds the three source files of the GrapeOS repository in Lean 4
and proves the specification claims about them:

* `src/kernel/src/main.rs` — the framebuffer-fill entry point `_start` and
  its panic handler;
* `src/zkernel/src/main.rs` — the VGA text console (`VgaConsole`), the
  lifecycle event dispatcher (`EventDispatcher`), the scripted `kernel_main`
  run, and its panic handler;
* `src/uefi_bootloader/src/common.rs` — the `BootInfo` constructor.

Memory-mapped regions are modelled as total functions `Nat → Nat` from cell
addresses to cell values; a raw pointer write becomes a pointwise function
update.  Rust `for i in 0..n` loops are transcribed as structural recursions
on the trip count, with iteration `i = k` performed by the `k+1` case on top
of the result of the first `k` iterations, preserving the source's
sequential order of reads and writes.
-/

set_option maxRecDepth 8192
set_option maxHeartbeats 2000000

namespace GrapeOS

/-- A memory-mapped region: cell address to cell value. -/
abbrev Mem := Nat → Nat

/-- A single raw write of value `v` at address `a`. -/
def writeMem (m : Mem) (a v : Nat) : Mem := fun x => if x = a then v else m x

theorem writeMem_self (m : Mem) (a v : Nat) : writeMem m a v a = v := by
  simp [writeMem]

theorem writeMem_other (m : Mem) (a v x : Nat) (h : x ≠ a) :
    writeMem m a v x = m x := by
  simp [writeMem, h]

/-! ## Framebuffer kernel (`src/kernel/src/main.rs`) -/

/-- `const COLOR_BLUE: u32 = 0x00FF0000;` — blue in BGR format. -/
def COLOR_BLUE : Nat := 0x00FF0000

/-- The `BootInfo` record.  `src/kernel/src/main.rs` and
`src/uefi_bootloader/src/common.rs` declare structurally identical
`#[repr(C)]` structs with these fields, so one Lean structure serves both
sides of the handoff.  Addresses are byte addresses; the framebuffer is an
array of 4-byte cells starting at `framebuffer_addr`. -/
structure BootInfo where
  memory_map_addr : Nat
  memory_map_size : Nat
  memory_map_entry_size : Nat
  framebuffer_addr : Nat
  framebuffer_width : Nat
  framebuffer_height : Nat
  framebuffer_stride : Nat
deriving DecidableEq

/-- The fill loop of `_start`: `for i in 0..n { fb[i] = COLOR_BLUE; }` where
`fb[i]` is the 32-bit cell at byte address `base + 4*i`. -/
def fillLoop (base : Nat) : Nat → Mem → Mem
  | 0, m => m
  | n + 1, m => writeMem (fillLoop base n m) (base + 4 * n) COLOR_BLUE

/-- The write trace of the fill loop: the (address, value) pairs written, in
order. -/
def fillLoopWrites (base : Nat) : Nat → List (Nat × Nat)
  | 0 => []
  | n + 1 => fillLoopWrites base n ++ [(base + 4 * n, COLOR_BLUE)]

/-- `_start` from `src/kernel/src/main.rs`, as a transformer of framebuffer
memory: if `boot_info.framebuffer_addr != 0`, fill
`framebuffer_width * framebuffer_height` consecutive 32-bit cells starting
at the framebuffer address with `COLOR_BLUE`; otherwise touch nothing.
(The trailing `hlt` loop is modelled separately; see the halt-loop model
below.) -/
def start_entry (bi : BootInfo) (m : Mem) : Mem :=
  if bi.framebuffer_addr ≠ 0 then
    fillLoop bi.framebuffer_addr (bi.framebuffer_width * bi.framebuffer_height) m
  else m

/-- The write trace of `_start`: empty when the framebuffer address is 0. -/
def start_entryWrites (bi : BootInfo) : List (Nat × Nat) :=
  if bi.framebuffer_addr ≠ 0 then
    fillLoopWrites bi.framebuffer_addr (bi.framebuffer_width * bi.framebuffer_height)
  else []

theorem fillLoop_hit (base : Nat) :
    ∀ n m i, i < n → fillLoop base n m (base + 4 * i) = COLOR_BLUE := by
  intro n
  induction n with
  | zero => intro m i hi; omega
  | succ k ih =>
    intro m i hi
    by_cases h : i = k
    · subst h
      exact writeMem_self _ _ _
    · have hik : i < k := by omega
      have hne : base + 4 * i ≠ base + 4 * k := by omega
      rw [fillLoop, writeMem_other _ _ _ _ hne]
      exact ih m i hik

theorem fillLoop_miss (base : Nat) :
    ∀ n m a, (∀ i, i < n → a ≠ base + 4 * i) → fillLoop base n m a = m a := by
  intro n
  induction n with
  | zero => intro m a _; rfl
  | succ k ih =>
    intro m a ha
    have hne : a ≠ base + 4 * k := ha k (Nat.lt_succ_self k)
    rw [fillLoop, writeMem_other _ _ _ _ hne]
    exact ih m a fun i hi => ha i (Nat.lt_succ_of_lt hi)

theorem fillLoopWrites_length (base : Nat) :
    ∀ n, (fillLoopWrites base n).length = n := by
  intro n
  induction n with
  | zero => rfl
  | succ k ih => simp [fillLoopWrites, ih]

theorem fillLoopWrites_mem (base : Nat) :
    ∀ n w, w ∈ fillLoopWrites base n →
      ∃ i, i < n ∧ w = (base + 4 * i, COLOR_BLUE) := by
  intro n
  induction n with
  | zero => intro w hw; simp [fillLoopWrites] at hw
  | succ k ih =>
    intro w hw
    simp only [fillLoopWrites, List.mem_append, List.mem_singleton] at hw
    rcases hw with hw | hw
    · obtain ⟨i, hi, hw⟩ := ih w hw
      exact ⟨i, Nat.lt_succ_of_lt hi, hw⟩
    · exact ⟨k, Nat.lt_succ_self k, hw⟩

/-- C1: For every `BootInfo` descriptor, the framebuffer-fill entry point
writes the fixed BGR color constant `COLOR_BLUE` to exactly
`width * height` consecutive 32-bit cells starting at the framebuffer
address when that address is non-zero, touching no other cells, and
performs zero memory writes (empty write trace, memory unchanged) when the
address equals 0. -/
theorem start_entry_spec (bi : BootInfo) (m : Mem) :
    (bi.framebuffer_addr = 0 →
      start_entryWrites bi = [] ∧ ∀ a, start_entry bi m a = m a)
    ∧ (bi.framebuffer_addr ≠ 0 →
        (start_entryWrites bi).length =
          bi.framebuffer_width * bi.framebuffer_height
        ∧ (∀ i, i < bi.framebuffer_width * bi.framebuffer_height →
            start_entry bi m (bi.framebuffer_addr + 4 * i) = COLOR_BLUE)
        ∧ (∀ a, (∀ i, i < bi.framebuffer_width * bi.framebuffer_height →
              a ≠ bi.framebuffer_addr + 4 * i) →
            start_entry bi m a = m a)
        ∧ (∀ w, w ∈ start_entryWrites bi →
            ∃ i, i < bi.framebuffer_width * bi.framebuffer_height ∧
              w = (bi.framebuffer_addr + 4 * i, COLOR_BLUE))) := by
  constructor
  · intro h0
    constructor
    · simp [start_entryWrites, h0]
    · intro a
      simp [start_entry, h0]
  · intro hne
    refine ⟨?_, ?_, ?_, ?_⟩
    · simp only [start_entryWrites, if_pos hne]
      exact fillLoopWrites_length _ _
    · intro i hi
      simp only [start_entry, if_pos hne]
      exact fillLoop_hit _ _ m i hi
    · intro a ha
      simp only [start_entry, if_pos hne]
      exact fillLoop_miss _ _ m a ha
    · intro w hw
      simp only [start_entryWrites, if_pos hne] at hw
      exact fillLoopWrites_mem _ _ w hw

/-- Witness for C1 at concrete descriptors: a 2×2 framebuffer at address
100 (four cells painted, cell at address 92 untouched), and a descriptor
with address 0 (empty write trace). -/
theorem start_entry_spec_witness :
    start_entryWrites ⟨1, 2, 3, 0, 2, 2, 2⟩ = []
    ∧ (start_entryWrites ⟨1, 2, 3, 100, 2, 2, 2⟩).length = 4
    ∧ start_entry ⟨1, 2, 3, 100, 2, 2, 2⟩ (fun _ => 7) (100 + 4 * 3) = COLOR_BLUE
    ∧ start_entry ⟨1, 2, 3, 100, 2, 2, 2⟩ (fun _ => 7) 92 = 7 := by
  refine ⟨((start_entry_spec ⟨1, 2, 3, 0, 2, 2, 2⟩ fun _ => 7).1 rfl).1, ?_, ?_, ?_⟩
  · exact ((start_entry_spec ⟨1, 2, 3, 100, 2, 2, 2⟩ fun _ => 7).2 (by decide)).1
  · exact (((start_entry_spec ⟨1, 2, 3, 100, 2, 2, 2⟩ fun _ => 7).2 (by decide)).2.1
      3 (by decide))
  · exact (((start_entry_spec ⟨1, 2, 3, 100, 2, 2, 2⟩ fun _ => 7).2
      (by decide)).2.2.1 92 (by decide))

/-! ## Bootloader `BootInfo` constructor (`src/uefi_bootloader/src/common.rs`) -/

/-- `BootInfo::new` from the bootloader: stores the memory-map arguments and
zeroes every framebuffer field. -/
def BootInfo.new (memory_map_addr memory_map_size memory_map_entry_size : Nat) :
    BootInfo :=
  { memory_map_addr := memory_map_addr
    memory_map_size := memory_map_size
    memory_map_entry_size := memory_map_entry_size
    framebuffer_addr := 0
    framebuffer_width := 0
    framebuffer_height := 0
    framebuffer_stride := 0 }

/-- C10: For all memory-map arguments, `BootInfo::new` returns a record
whose framebuffer address, width, height and stride are all 0, so passing
it unmodified to the framebuffer-fill entry point produces zero framebuffer
writes and leaves memory unchanged. -/
theorem bootInfo_new_spec (a b c : Nat) (m : Mem) :
    (BootInfo.new a b c).framebuffer_addr = 0
    ∧ (BootInfo.new a b c).framebuffer_width = 0
    ∧ (BootInfo.new a b c).framebuffer_height = 0
    ∧ (BootInfo.new a b c).framebuffer_stride = 0
    ∧ start_entryWrites (BootInfo.new a b c) = []
    ∧ ∀ x, start_entry (BootInfo.new a b c) m x = m x :=
  ⟨rfl, rfl, rfl, rfl, rfl, fun _ => rfl⟩

/-! ## VGA console (`src/zkernel/src/main.rs`) -/

/-- The blank cell `0x0720`: space with gray-on-black attribute. -/
def BLANK : Nat := 0x0720

/-- The `VgaConsole` state: the 80×25 VGA text memory (one `u16` cell per
character position, cell index `row * 80 + col`) together with the cursor
position.  The Rust struct holds a raw pointer to the hardware region and
interior-mutability cells for `row` and `col`; here the region's contents
are part of the state. -/
structure VgaConsole where
  buffer : Mem
  row : Nat
  col : Nat

namespace VgaConsole

/-- `VgaConsole::new()`: cursor at (0,0) over whatever the hardware text
memory currently holds. -/
def new (m0 : Mem) : VgaConsole := ⟨m0, 0, 0⟩

/-- Inner loop of the scroll in `newline`, for row `y`:
`for x in 0..n { buf[(y-1)*80 + x] = buf[y*80 + x]; }`, reads and writes in
source order. -/
def copyRowLoop (y : Nat) : Nat → Mem → Mem
  | 0, b => b
  | x + 1, b =>
    let b' := copyRowLoop y x b
    writeMem b' ((y - 1) * 80 + x) (b' (y * 80 + x))

/-- Outer loop of the scroll: `for y in 1..(k+1) { copy row y up }`. -/
def scrollLoop : Nat → Mem → Mem
  | 0, b => b
  | k + 1, b => copyRowLoop (k + 1) 80 (scrollLoop k b)

/-- `for x in 0..n { buf[24*80 + x] = 0x0720; }` — blank the last row. -/
def blankLoop : Nat → Mem → Mem
  | 0, b => b
  | x + 1, b => writeMem (blankLoop x b) (24 * 80 + x) BLANK

/-- `VgaConsole::newline`: reset the column, increment the row; when the
incremented row would be ≥ 25, scroll rows 1..24 up into 0..23, blank row
24 and pin the row at 24. -/
def newline (s : VgaConsole) : VgaConsole :=
  let new_row := s.row + 1
  if new_row ≥ 25 then
    ⟨blankLoop 80 (scrollLoop 24 s.buffer), 24, 0⟩
  else
    ⟨s.buffer, new_row, 0⟩

/-- `for i in 0..(80*25) { buf[i] = 0x0720; }` — the loop of `clear`. -/
def clearLoop : Nat → Mem → Mem
  | 0, b => b
  | i + 1, b => writeMem (clearLoop i b) i BLANK

/-- `VgaConsole::clear`: blank all 2000 cells and reset the cursor. -/
def clear (s : VgaConsole) : VgaConsole := ⟨clearLoop (80 * 25) s.buffer, 0, 0⟩

/-- `VgaConsole::write_char`: newline on `'\n'`, carriage return on `'\r'`,
otherwise store `0x0700 | (c as u16)` at the cursor cell and advance,
wrapping through `newline` when the new column reaches 80. -/
def write_char (s : VgaConsole) (c : Char) : VgaConsole :=
  if c = '\n' then s.newline
  else if c = '\r' then ⟨s.buffer, s.row, 0⟩
  else
    let char_with_attr := 0x0700 ||| (c.toNat % 65536)
    let b := writeMem s.buffer (s.row * 80 + s.col) char_with_attr
    let new_col := s.col + 1
    if new_col ≥ 80 then
      (⟨b, s.row, s.col⟩ : VgaConsole).newline
    else
      ⟨b, s.row, new_col⟩

/-- `VgaConsole::write_str`: apply `write_char` to each character in
sequence order. -/
def write_str (s : VgaConsole) (cs : List Char) : VgaConsole :=
  cs.foldl write_char s

end VgaConsole

/-! ### Net effect of the scroll loops -/

theorem copyRowLoop_untouched (y : Nat) :
    ∀ n b a, (a < (y - 1) * 80 ∨ (y - 1) * 80 + n ≤ a) →
      VgaConsole.copyRowLoop y n b a = b a := by
  intro n
  induction n with
  | zero => intro b a _; rfl
  | succ x ih =>
    intro b a ha
    have hne : a ≠ (y - 1) * 80 + x := by omega
    rw [VgaConsole.copyRowLoop]
    rw [writeMem_other _ _ _ _ hne]
    exact ih b a (by omega)

theorem copyRowLoop_copied (y : Nat) (hy : 1 ≤ y) :
    ∀ n b x, x < n → n ≤ 80 →
      VgaConsole.copyRowLoop y n b ((y - 1) * 80 + x) = b (y * 80 + x) := by
  intro n
  induction n with
  | zero => intro b x hx _; omega
  | succ k ih =>
    intro b x hx hn
    rw [VgaConsole.copyRowLoop]
    by_cases hxk : x = k
    · subst hxk
      rw [writeMem_self]
      exact copyRowLoop_untouched y x b (y * 80 + x) (by omega)
    · have hne : (y - 1) * 80 + x ≠ (y - 1) * 80 + k := by omega
      rw [writeMem_other _ _ _ _ hne]
      exact ih b x (by omega) (by omega)

theorem scrollLoop_high :
    ∀ k b a, k * 80 ≤ a → VgaConsole.scrollLoop k b a = b a := by
  intro k
  induction k with
  | zero => intro b a _; rfl
  | succ j ih =>
    intro b a ha
    rw [VgaConsole.scrollLoop]
    rw [copyRowLoop_untouched (j + 1) 80 _ a (by omega)]
    exact ih b a (by omega)

theorem scrollLoop_shift :
    ∀ k b a, a < k * 80 → VgaConsole.scrollLoop k b a = b (a + 80) := by
  intro k
  induction k with
  | zero => intro b a ha; omega
  | succ j ih =>
    intro b a ha
    rw [VgaConsole.scrollLoop]
    by_cases hlow : a < j * 80
    · rw [copyRowLoop_untouched (j + 1) 80 _ a (by omega)]
      exact ih b a hlow
    · have h1 := copyRowLoop_copied (j + 1) (by omega) 80
        (VgaConsole.scrollLoop j b) (a - j * 80) (by omega) le_rfl
      have ha1 : (j + 1 - 1) * 80 + (a - j * 80) = a := by omega
      have ha2 : (j + 1) * 80 + (a - j * 80) = a + 80 := by omega
      rw [ha1, ha2] at h1
      rw [h1]
      exact scrollLoop_high j b (a + 80) (by omega)

theorem blankLoop_in :
    ∀ n b x, x < n → VgaConsole.blankLoop n b (24 * 80 + x) = BLANK := by
  intro n
  induction n with
  | zero => intro b x hx; omega
  | succ k ih =>
    intro b x hx
    rw [VgaConsole.blankLoop]
    by_cases hxk : x = k
    · subst hxk; exact writeMem_self _ _ _
    · have hne : 24 * 80 + x ≠ 24 * 80 + k := by omega
      rw [writeMem_other _ _ _ _ hne]
      exact ih b x (by omega)

theorem blankLoop_out :
    ∀ n b a, (a < 24 * 80 ∨ 24 * 80 + n ≤ a) →
      VgaConsole.blankLoop n b a = b a := by
  intro n
  induction n with
  | zero => intro b a _; rfl
  | succ k ih =>
    intro b a ha
    have hne : a ≠ 24 * 80 + k := by omega
    rw [VgaConsole.blankLoop, writeMem_other _ _ _ _ hne]
    exact ih b a (by omega)

theorem clearLoop_in :
    ∀ n b i, i < n → VgaConsole.clearLoop n b i = BLANK := by
  intro n
  induction n with
  | zero => intro b i hi; omega
  | succ k ih =>
    intro b i hi
    rw [VgaConsole.clearLoop]
    by_cases hik : i = k
    · subst hik; exact writeMem_self _ _ _
    · rw [writeMem_other _ _ _ _ hik]
      exact ih b i (by omega)

theorem clearLoop_out :
    ∀ n b a, n ≤ a → VgaConsole.clearLoop n b a = b a := by
  intro n
  induction n with
  | zero => intro b a _; rfl
  | succ k ih =>
    intro b a ha
    have hne : a ≠ k := by omega
    rw [VgaConsole.clearLoop, writeMem_other _ _ _ _ hne]
    exact ih b a (by omega)

/-! ### Claims about the console operations -/

/-- C2: the "next row" action.  When `row + 1 ≥ 25` the contents of rows
1..24 are shifted up into rows 0..23 (cell `i` of the result holds old cell
`i + 80` for `i < 1920`), row 24 is blanked, and the cursor row is pinned at
24; otherwise the row is simply incremented.  In both cases the column is
reset to 0, and a row that was ≤ 24 stays ≤ 24. -/
theorem newline_spec (s : VgaConsole) :
    (s.row + 1 ≥ 25 →
      (s.newline).row = 24 ∧ (s.newline).col = 0
      ∧ (∀ i, i < 1920 → (s.newline).buffer i = s.buffer (i + 80))
      ∧ (∀ i, 1920 ≤ i → i < 2000 → (s.newline).buffer i = BLANK))
    ∧ (s.row + 1 < 25 →
        (s.newline).row = s.row + 1 ∧ (s.newline).col = 0
        ∧ ∀ i, (s.newline).buffer i = s.buffer i)
    ∧ (s.row ≤ 24 → (s.newline).row ≤ 24) := by
  refine ⟨?_, ?_, ?_⟩
  · intro h
    have he : s.newline =
        ⟨VgaConsole.blankLoop 80 (VgaConsole.scrollLoop 24 s.buffer), 24, 0⟩ := by
      simp only [VgaConsole.newline]
      rw [if_pos h]
    rw [he]
    refine ⟨rfl, rfl, ?_, ?_⟩
    · intro i hi
      show VgaConsole.blankLoop 80 (VgaConsole.scrollLoop 24 s.buffer) i
        = s.buffer (i + 80)
      rw [blankLoop_out 80 _ i (by omega)]
      exact scrollLoop_shift 24 s.buffer i (by omega)
    · intro i h1 h2
      show VgaConsole.blankLoop 80 (VgaConsole.scrollLoop 24 s.buffer) i = BLANK
      have hi : i = 24 * 80 + (i - 1920) := by omega
      rw [hi]
      exact blankLoop_in 80 _ (i - 1920) (by omega)
  · intro h
    have he : s.newline = ⟨s.buffer, s.row + 1, 0⟩ := by
      simp only [VgaConsole.newline]
      rw [if_neg (by omega)]
    rw [he]
    exact ⟨rfl, rfl, fun i => rfl⟩
  · intro _
    by_cases h25 : s.row + 1 ≥ 25
    · have he : s.newline =
          ⟨VgaConsole.blankLoop 80 (VgaConsole.scrollLoop 24 s.buffer), 24, 0⟩ := by
        simp only [VgaConsole.newline]
        rw [if_pos h25]
      rw [he]
    · have he : s.newline = ⟨s.buffer, s.row + 1, 0⟩ := by
        simp only [VgaConsole.newline]
        rw [if_neg h25]
      rw [he]
      show s.row + 1 ≤ 24
      omega

/-- Witness for C2 at a concrete console: row 24, so the transition
scrolls, and row 3, so the transition just increments. -/
theorem newline_spec_witness :
    (⟨fun i => i, 24, 7⟩ : VgaConsole).newline.row = 24
    ∧ (⟨fun i => i, 24, 7⟩ : VgaConsole).newline.buffer 0 = 80
    ∧ (⟨fun i => i, 24, 7⟩ : VgaConsole).newline.buffer 1950 = BLANK
    ∧ (⟨fun i => i, 3, 7⟩ : VgaConsole).newline.row = 4 := by
  refine ⟨((newline_spec ⟨fun i => i, 24, 7⟩).1
      (by show 24 + 1 ≥ 25; omega)).1, ?_, ?_, ?_⟩
  · exact ((newline_spec ⟨fun i => i, 24, 7⟩).1
      (by show 24 + 1 ≥ 25; omega)).2.2.1 0 (by omega)
  · exact ((newline_spec ⟨fun i => i, 24, 7⟩).1
      (by show 24 + 1 ≥ 25; omega)).2.2.2 1950 (by omega) (by omega)
  · exact ((newline_spec ⟨fun i => i, 3, 7⟩).2.1
      (by show 3 + 1 < 25; omega)).1

/-- C7: after `clear()` every one of the 2000 text cells holds the blank
value `0x0720` and the cursor is at (0, 0). -/
theorem clear_spec (s : VgaConsole) :
    (∀ i, i < 2000 → (s.clear).buffer i = BLANK)
    ∧ (s.clear).row = 0 ∧ (s.clear).col = 0 := by
  refine ⟨?_, rfl, rfl⟩
  intro i hi
  show VgaConsole.clearLoop (80 * 25) s.buffer i = BLANK
  exact clearLoop_in (80 * 25) s.buffer i (by omega)

/-- Witness for C7 at a concrete console. -/
theorem clear_spec_witness :
    (⟨fun i => i + 3, 9, 17⟩ : VgaConsole).clear.buffer 1999 = BLANK
    ∧ (⟨fun i => i + 3, 9, 17⟩ : VgaConsole).clear.row = 0 := by
  exact ⟨(clear_spec ⟨fun i => i + 3, 9, 17⟩).1 1999 (by omega),
    (clear_spec ⟨fun i => i + 3, 9, 17⟩).2.1⟩

theorem newline_row_le (s : VgaConsole) : (s.newline).row ≤ 24 := by
  by_cases h : s.row + 1 ≥ 25
  · have he : s.newline =
        ⟨VgaConsole.blankLoop 80 (VgaConsole.scrollLoop 24 s.buffer), 24, 0⟩ := by
      simp only [VgaConsole.newline]
      rw [if_pos h]
    rw [he]
  · have he : s.newline = ⟨s.buffer, s.row + 1, 0⟩ := by
      simp only [VgaConsole.newline]
      rw [if_neg h]
    rw [he]
    show s.row + 1 ≤ 24
    omega

theorem newline_col_eq (s : VgaConsole) : (s.newline).col = 0 := by
  by_cases h : s.row + 1 ≥ 25
  · simp only [VgaConsole.newline]
    rw [if_pos h]
  · simp only [VgaConsole.newline]
    rw [if_neg h]

theorem write_char_row_le (s : VgaConsole) (c : Char) (hr : s.row ≤ 24) :
    (s.write_char c).row ≤ 24 := by
  unfold VgaConsole.write_char
  by_cases h1 : c = '\n'
  · rw [if_pos h1]; exact newline_row_le s
  · rw [if_neg h1]
    by_cases h2 : c = '\r'
    · rw [if_pos h2]; exact hr
    · rw [if_neg h2]
      simp only
      by_cases h3 : s.col + 1 ≥ 80
      · rw [if_pos h3]; exact newline_row_le _
      · rw [if_neg h3]; exact hr

theorem write_char_col_le (s : VgaConsole) (c : Char) :
    (s.write_char c).col ≤ 79 := by
  unfold VgaConsole.write_char
  by_cases h1 : c = '\n'
  · rw [if_pos h1]
    rw [newline_col_eq s]
    omega
  · rw [if_neg h1]
    by_cases h2 : c = '\r'
    · rw [if_pos h2]
      show 0 ≤ 79
      omega
    · rw [if_neg h2]
      simp only
      by_cases h3 : s.col + 1 ≥ 80
      · rw [if_pos h3]
        rw [newline_col_eq _]
        omega
      · rw [if_neg h3]
        show s.col + 1 ≤ 79
        omega

theorem write_str_bounds (cs : List Char) :
    ∀ s : VgaConsole, s.row ≤ 24 → s.col ≤ 79 →
      (s.write_str cs).row ≤ 24 ∧ (s.write_str cs).col ≤ 79 := by
  induction cs with
  | nil => intro s hr hc; exact ⟨hr, hc⟩
  | cons c cs ih =>
    intro s hr hc
    exact ih (s.write_char c) (write_char_row_le s c hr) (write_char_col_le s c)

/-- C5: the cursor invariant `row ∈ [0,24] ∧ col ∈ [0,79]` is preserved by
`clear`, by `write_char` with any character, and by `write_str` with any
string. -/
theorem console_bounds (s : VgaConsole) (hr : s.row ≤ 24) (hc : s.col ≤ 79) :
    ((s.clear).row ≤ 24 ∧ (s.clear).col ≤ 79)
    ∧ (∀ c, (s.write_char c).row ≤ 24 ∧ (s.write_char c).col ≤ 79)
    ∧ (∀ cs, (s.write_str cs).row ≤ 24 ∧ (s.write_str cs).col ≤ 79) := by
  refine ⟨⟨by show 0 ≤ 24; omega, by show 0 ≤ 79; omega⟩, ?_, ?_⟩
  · intro c
    exact ⟨write_char_row_le s c hr, write_char_col_le s c⟩
  · intro cs
    exact write_str_bounds cs s hr hc

/-- Witness for C5 at a concrete console, character and string. -/
theorem console_bounds_witness :
    ((⟨fun _ => 0, 24, 79⟩ : VgaConsole).write_char 'x').row ≤ 24
    ∧ ((⟨fun _ => 0, 24, 79⟩ : VgaConsole).write_str
        ('y' :: 'z' :: '\n' :: [])).col ≤ 79 := by
  exact ⟨((console_bounds ⟨fun _ => 0, 24, 79⟩ (by show 24 ≤ 24; omega)
      (by show 79 ≤ 79; omega)).2.1 'x').1,
    ((console_bounds ⟨fun _ => 0, 24, 79⟩ (by show 24 ≤ 24; omega)
      (by show 79 ≤ 79; omega)).2.2 ('y' :: 'z' :: '\n' :: [])).2⟩

-- Byte decomposition of the stored cell for character codes below 256:
-- `0x0700 | x` has low byte `x` and high byte `0x07`.
set_option maxRecDepth 8192 in
theorem lor_attr_bytes :
    ∀ x, x < 256 → (0x0700 ||| x) % 256 = x ∧ (0x0700 ||| x) / 256 = 7 := by
  decide

/-- C3 counterexample: for the character with code 256 (which is neither
`'\n'` nor `'\r'`), the cell stored by `write_char` at the cursor is
`0x0700 ||| 256 = 0x0700`, whose low byte is 0, not the character code 256
— the claim "the cell's low byte is the character code" fails for
characters whose code does not fit in one byte. -/
theorem write_char_lowbyte_counterexample :
    ¬ (((VgaConsole.new fun _ => 0).write_char (Char.ofNat 256)).buffer 0 % 256
        = (Char.ofNat 256).toNat) := by
  decide

/-- C3 (amended): `write_char '\n'` performs the "next row" action (which
resets the column); `write_char '\r'` resets the column leaving row and
buffer unchanged; any other character stores `0x0700 ||| (code mod 2^16)`
at the current cell — a value whose low byte is the character code and
whose high byte is the fixed attribute `0x07` whenever the code is below
256 — then advances the column by 1, performing the "next row" action when
the new column reaches 80. -/
theorem write_char_spec (s : VgaConsole) (c : Char) :
    (c = '\n' → s.write_char c = s.newline)
    ∧ (c = '\r' → (s.write_char c).row = s.row ∧ (s.write_char c).col = 0
        ∧ ∀ a, (s.write_char c).buffer a = s.buffer a)
    ∧ (c ≠ '\n' → c ≠ '\r' →
        s.write_char c =
          (if s.col + 1 ≥ 80 then
            VgaConsole.newline
              ⟨writeMem s.buffer (s.row * 80 + s.col) (0x0700 ||| (c.toNat % 65536)),
                s.row, s.col⟩
          else
            ⟨writeMem s.buffer (s.row * 80 + s.col) (0x0700 ||| (c.toNat % 65536)),
              s.row, s.col + 1⟩)
        ∧ (c.toNat < 256 →
            (0x0700 ||| (c.toNat % 65536)) % 256 = c.toNat
            ∧ (0x0700 ||| (c.toNat % 65536)) / 256 = 7)) := by
  refine ⟨?_, ?_, ?_⟩
  · intro h
    unfold VgaConsole.write_char
    rw [if_pos h]
  · intro h
    have hn : c ≠ '\n' := by
      rw [h]; decide
    unfold VgaConsole.write_char
    rw [if_neg hn, if_pos h]
    exact ⟨rfl, rfl, fun a => rfl⟩
  · intro hn hr
    constructor
    · unfold VgaConsole.write_char
      rw [if_neg hn, if_neg hr]
    · intro hlt
      have hmod : c.toNat % 65536 = c.toNat := Nat.mod_eq_of_lt (by omega)
      rw [hmod]
      exact lor_attr_bytes c.toNat hlt

/-- Witness for C3 at concrete inputs: the newline case, and the plain
character `'A'` (code 65), whose stored cell decomposes into low byte 65
and high byte 7. -/
theorem write_char_spec_witness :
    ((⟨fun _ => 0, 2, 3⟩ : VgaConsole).write_char '\n'
      = (⟨fun _ => 0, 2, 3⟩ : VgaConsole).newline)
    ∧ (0x0700 ||| (Char.toNat 'A' % 65536)) % 256 = Char.toNat 'A'
    ∧ (0x0700 ||| (Char.toNat 'A' % 65536)) / 256 = 7 := by
  refine ⟨(write_char_spec ⟨fun _ => 0, 2, 3⟩ '\n').1 rfl, ?_, ?_⟩
  · exact (((write_char_spec ⟨fun _ => 0, 2, 3⟩ 'A').2.2 (by decide)
      (by decide)).2 (by decide)).1
  · exact (((write_char_spec ⟨fun _ => 0, 2, 3⟩ 'A').2.2 (by decide)
      (by decide)).2 (by decide)).2

/-! ## Event dispatcher and scripted run (`src/zkernel/src/main.rs`) -/

/-- The closed set of lifecycle event kinds. -/
inductive EventType where
  | SystemInit
  | KeyPress
  | Timer
  | SystemShutdown
deriving DecidableEq

/-- An event: tagged kind, priority byte (carried but never consulted by
dispatch) and placeholder timestamp. -/
structure Event where
  event_type : EventType
  priority : Nat
  timestamp : Nat
deriving DecidableEq

/-- The dispatcher-reachable state: the `EventDispatcher`'s console together
with the process-wide `SYSTEM_RUNNING` atomic flag (initialised `false` by
its static initialiser; written only by the Init and Shutdown handlers). -/
structure SysState where
  console : VgaConsole
  running : Bool

/-- `EventDispatcher::create_event`: builds an event with a dummy
timestamp of 0. -/
def create_event (event_type : EventType) (priority : Nat) : Event :=
  { event_type := event_type, priority := priority, timestamp := 0 }

/-- `handle_system_init`: clear the console, write the three banner lines,
set `SYSTEM_RUNNING` to `true`. -/
def handle_system_init (s : SysState) (_event : Event) : SysState :=
  let c := s.console.clear
  let c := c.write_str "GrapeOS Kernel Initialized\n\r".toList
  let c := c.write_str "---------------------------\n\r".toList
  let c := c.write_str "Welcome to the Reactive Operating System!\n\r".toList
  { console := c, running := true }

/-- `handle_key_press`: write the fixed notice line. -/
def handle_key_press (s : SysState) (_event : Event) : SysState :=
  { s with console := s.console.write_str "Key press detected\n\r".toList }

/-- `handle_timer`: write a single progress-marker dot. -/
def handle_timer (s : SysState) (_event : Event) : SysState :=
  { s with console := s.console.write_str ".".toList }

/-- `handle_system_shutdown`: write the shutdown banner, set
`SYSTEM_RUNNING` to `false`. -/
def handle_system_shutdown (s : SysState) (_event : Event) : SysState :=
  { console := s.console.write_str "\n\rShutting down...\n\r".toList,
    running := false }

/-- `EventDispatcher::dispatch_event`: a pure kind-to-handler lookup,
executed synchronously. -/
def dispatch_event (s : SysState) (event : Event) : SysState :=
  match event.event_type with
  | .SystemInit => handle_system_init s event
  | .KeyPress => handle_key_press s event
  | .Timer => handle_timer s event
  | .SystemShutdown => handle_system_shutdown s event

/-- C4: after `dispatch_event e`, the running flag is `true` if `e`'s kind
is Init, `false` if its kind is Shutdown, and unchanged for KeyPress and
Timer. -/
theorem dispatch_event_running (s : SysState) (p t : Nat) :
    (dispatch_event s ⟨.SystemInit, p, t⟩).running = true
    ∧ (dispatch_event s ⟨.SystemShutdown, p, t⟩).running = false
    ∧ (dispatch_event s ⟨.KeyPress, p, t⟩).running = s.running
    ∧ (dispatch_event s ⟨.Timer, p, t⟩).running = s.running := by
  refine ⟨?_, ?_, ?_, ?_⟩
  · simp [dispatch_event, handle_system_init]
  · simp [dispatch_event, handle_system_shutdown]
  · simp [dispatch_event, handle_key_press]
  · simp [dispatch_event, handle_timer]

/-- C9: two events that agree on kind but may differ in priority and
timestamp dispatch identically from the same state — the same console
contents, cursor position and running flag result; dispatch never consults
the priority field. -/
theorem dispatch_event_priority_oblivious (s : SysState) (e e' : Event)
    (h : e.event_type = e'.event_type) :
    dispatch_event s e = dispatch_event s e' := by
  cases e with
  | mk k p t =>
    cases e' with
    | mk k' p' t' =>
      simp only at h
      subst h
      cases k <;> rfl

/-- Witness for C9: two KeyPress events with distinct priorities and
timestamps dispatch to equal states. -/
theorem dispatch_event_priority_oblivious_witness :
    dispatch_event ⟨⟨fun _ => 0, 0, 0⟩, false⟩ ⟨.KeyPress, 8, 0⟩
      = dispatch_event ⟨⟨fun _ => 0, 0, 0⟩, false⟩ ⟨.KeyPress, 3, 99⟩ :=
  dispatch_event_priority_oblivious ⟨⟨fun _ => 0, 0, 0⟩, false⟩
    ⟨.KeyPress, 8, 0⟩ ⟨.KeyPress, 3, 99⟩ rfl

/-- The busy-wait delay `for _ in 0..5000000 { core::hint::spin_loop(); }`.
`spin_loop` is an execution hint with no effect on architectural state, so
the delay is the identity on the kernel state. -/
def delay_loop (s : SysState) : SysState := s

/-- The timer loop of `kernel_main`:
`for _i in 0..10 { dispatch Timer; busy-wait }`, instrumented with the
trace of dispatched events. -/
def timerLoop : Nat → SysState × List Event → SysState × List Event
  | 0, st => st
  | n + 1, st =>
    let st' := timerLoop n st
    let timer_event := create_event .Timer 5
    (delay_loop (dispatch_event st'.1 timer_event), st'.2 ++ [timer_event])

/-- The observable outcome of `kernel_main`: the final state, the trace of
dispatched events in order, and whether the terminal halt loop was
reached. -/
structure KRun where
  state : SysState
  trace : List Event
  halted : Bool

/-- `kernel_main`, parameterised by the initial contents `m0` of the VGA
text memory: construct the dispatcher (console cursor at (0,0),
`SYSTEM_RUNNING` statically initialised to `false`), dispatch Init, run the
ten-iteration timer loop with its busy-wait delays, dispatch KeyPress,
dispatch Shutdown, and enter the halt loop. -/
def kernel_main (m0 : Mem) : KRun :=
  let dispatcher : SysState := ⟨VgaConsole.new m0, false⟩
  let init_event := create_event .SystemInit 10
  let s1 := dispatch_event dispatcher init_event
  let p := timerLoop 10 (s1, [init_event])
  let key_event := create_event .KeyPress 8
  let s2 := dispatch_event p.1 key_event
  let shutdown_event := create_event .SystemShutdown 10
  let s3 := dispatch_event s2 shutdown_event
  { state := s3, trace := p.2 ++ [key_event, shutdown_event], halted := true }

/-! ### Determinism of the scripted run

The initial contents of the VGA text memory are whatever the hardware held
at boot.  The scripted run starts with Init, whose handler clears the
visible 2000 cells, so the final console contents on those cells, the
cursor and the running flag are independent of the initial memory.  The
lemmas below push this independence through every console operation. -/

/-- Agreement of two memories on the 2000 visible text cells. -/
def EqBelow (m m' : Mem) : Prop := ∀ i, i < 2000 → m i = m' i

theorem writeMem_cong {b b' : Mem} (h : EqBelow b b') (a v : Nat) :
    EqBelow (writeMem b a v) (writeMem b' a v) := by
  intro i hi
  unfold writeMem
  by_cases hia : i = a
  · rw [if_pos hia, if_pos hia]
  · rw [if_neg hia, if_neg hia]
    exact h i hi

theorem copyRowLoop_cong (y : Nat) (hy : y ≤ 24) :
    ∀ n, n ≤ 80 → ∀ b b', EqBelow b b' →
      EqBelow (VgaConsole.copyRowLoop y n b) (VgaConsole.copyRowLoop y n b') := by
  intro n
  induction n with
  | zero => intro _ b b' h; exact h
  | succ x ih =>
    intro hn b b' h
    have h' := ih (by omega) b b' h
    have hread : VgaConsole.copyRowLoop y x b (y * 80 + x)
        = VgaConsole.copyRowLoop y x b' (y * 80 + x) :=
      h' (y * 80 + x) (by omega)
    intro i hi
    show writeMem (VgaConsole.copyRowLoop y x b) ((y - 1) * 80 + x)
        (VgaConsole.copyRowLoop y x b (y * 80 + x)) i
      = writeMem (VgaConsole.copyRowLoop y x b') ((y - 1) * 80 + x)
        (VgaConsole.copyRowLoop y x b' (y * 80 + x)) i
    rw [hread]
    exact writeMem_cong h' _ _ i hi

theorem scrollLoop_cong :
    ∀ k, k ≤ 24 → ∀ b b', EqBelow b b' →
      EqBelow (VgaConsole.scrollLoop k b) (VgaConsole.scrollLoop k b') := by
  intro k
  induction k with
  | zero => intro _ b b' h; exact h
  | succ j ih =>
    intro hk b b' h
    show EqBelow (VgaConsole.copyRowLoop (j + 1) 80 (VgaConsole.scrollLoop j b))
      (VgaConsole.copyRowLoop (j + 1) 80 (VgaConsole.scrollLoop j b'))
    exact copyRowLoop_cong (j + 1) (by omega) 80 (by omega) _ _
      (ih (by omega) b b' h)

theorem blankLoop_cong :
    ∀ n b b', EqBelow b b' →
      EqBelow (VgaConsole.blankLoop n b) (VgaConsole.blankLoop n b') := by
  intro n
  induction n with
  | zero => intro b b' h; exact h
  | succ x ih =>
    intro b b' h
    show EqBelow (writeMem (VgaConsole.blankLoop x b) (24 * 80 + x) BLANK)
      (writeMem (VgaConsole.blankLoop x b') (24 * 80 + x) BLANK)
    exact writeMem_cong (ih b b' h) _ _

/-- Console-state agreement: buffers agree on the visible cells, cursors
coincide. -/
def CEq (s s' : VgaConsole) : Prop :=
  EqBelow s.buffer s'.buffer ∧ s.row = s'.row ∧ s.col = s'.col

theorem clear_CEq (s s' : VgaConsole) : CEq s.clear s'.clear := by
  refine ⟨?_, rfl, rfl⟩
  intro i hi
  show VgaConsole.clearLoop (80 * 25) s.buffer i
    = VgaConsole.clearLoop (80 * 25) s'.buffer i
  rw [clearLoop_in (80 * 25) s.buffer i (by omega),
    clearLoop_in (80 * 25) s'.buffer i (by omega)]

theorem newline_cong {s s' : VgaConsole} (h : CEq s s') :
    CEq s.newline s'.newline := by
  obtain ⟨hb, hr, hc⟩ := h
  by_cases h25 : s.row + 1 ≥ 25
  · have h25' : s'.row + 1 ≥ 25 := by omega
    have e1 : s.newline =
        ⟨VgaConsole.blankLoop 80 (VgaConsole.scrollLoop 24 s.buffer), 24, 0⟩ := by
      simp only [VgaConsole.newline]
      rw [if_pos h25]
    have e2 : s'.newline =
        ⟨VgaConsole.blankLoop 80 (VgaConsole.scrollLoop 24 s'.buffer), 24, 0⟩ := by
      simp only [VgaConsole.newline]
      rw [if_pos h25']
    rw [e1, e2]
    exact ⟨blankLoop_cong 80 _ _ (scrollLoop_cong 24 (by omega) _ _ hb), rfl, rfl⟩
  · have h25' : ¬ s'.row + 1 ≥ 25 := by omega
    have e1 : s.newline = ⟨s.buffer, s.row + 1, 0⟩ := by
      simp only [VgaConsole.newline]
      rw [if_neg h25]
    have e2 : s'.newline = ⟨s'.buffer, s'.row + 1, 0⟩ := by
      simp only [VgaConsole.newline]
      rw [if_neg h25']
    rw [e1, e2]
    exact ⟨hb, by show s.row + 1 = s'.row + 1; omega, rfl⟩

theorem write_char_cong (c : Char) {s s' : VgaConsole} (h : CEq s s') :
    CEq (s.write_char c) (s'.write_char c) := by
  obtain ⟨hb, hr, hc⟩ := h
  unfold VgaConsole.write_char
  by_cases h1 : c = '\n'
  · rw [if_pos h1, if_pos h1]
    exact newline_cong ⟨hb, hr, hc⟩
  · rw [if_neg h1, if_neg h1]
    by_cases h2 : c = '\r'
    · rw [if_pos h2, if_pos h2]
      exact ⟨hb, hr, rfl⟩
    · rw [if_neg h2, if_neg h2]
      simp only
      have hidx : s'.row * 80 + s'.col = s.row * 80 + s.col := by omega
      have hbm : EqBelow
          (writeMem s.buffer (s.row * 80 + s.col) (0x0700 ||| (c.toNat % 65536)))
          (writeMem s'.buffer (s'.row * 80 + s'.col) (0x0700 ||| (c.toNat % 65536))) := by
        rw [hidx]
        exact writeMem_cong hb _ _
      by_cases h3 : s.col + 1 ≥ 80
      · have h3' : s'.col + 1 ≥ 80 := by omega
        rw [if_pos h3, if_pos h3']
        exact newline_cong ⟨hbm, hr, hc⟩
      · have h3' : ¬ s'.col + 1 ≥ 80 := by omega
        rw [if_neg h3, if_neg h3']
        exact ⟨hbm, hr, by show s.col + 1 = s'.col + 1; omega⟩

theorem write_str_cong (cs : List Char) :
    ∀ {s s' : VgaConsole}, CEq s s' →
      CEq (s.write_str cs) (s'.write_str cs) := by
  induction cs with
  | nil => intro s s' h; exact h
  | cons c cs ih => intro s s' h; exact ih (write_char_cong c h)

/-- Kernel-state agreement: consoles agree on the visible cells and cursor,
running flags coincide. -/
def SEq (s s' : SysState) : Prop := CEq s.console s'.console ∧ s.running = s'.running

theorem handle_system_init_SEq (s s' : SysState) (e e' : Event) :
    SEq (handle_system_init s e) (handle_system_init s' e') := by
  unfold handle_system_init
  exact ⟨write_str_cong _ (write_str_cong _ (write_str_cong _ (clear_CEq _ _))), rfl⟩

theorem dispatch_init_eq (s : SysState) (p t : Nat) :
    dispatch_event s ⟨.SystemInit, p, t⟩
      = handle_system_init s ⟨.SystemInit, p, t⟩ := by
  simp [dispatch_event]

theorem dispatch_keypress_eq (s : SysState) (p t : Nat) :
    dispatch_event s ⟨.KeyPress, p, t⟩
      = ⟨s.console.write_str "Key press detected\n\r".toList, s.running⟩ := by
  simp [dispatch_event, handle_key_press]

theorem dispatch_timer_eq (s : SysState) (p t : Nat) :
    dispatch_event s ⟨.Timer, p, t⟩
      = ⟨s.console.write_str ".".toList, s.running⟩ := by
  simp [dispatch_event, handle_timer]

theorem dispatch_shutdown_eq (s : SysState) (p t : Nat) :
    dispatch_event s ⟨.SystemShutdown, p, t⟩
      = ⟨s.console.write_str "\n\rShutting down...\n\r".toList, false⟩ := by
  simp [dispatch_event, handle_system_shutdown]

theorem dispatch_event_SEq (e : Event) {s s' : SysState} (h : SEq s s') :
    SEq (dispatch_event s e) (dispatch_event s' e) := by
  obtain ⟨hc, hrun⟩ := h
  cases e with
  | mk k p t =>
    cases k with
    | SystemInit =>
      rw [dispatch_init_eq s p t, dispatch_init_eq s' p t]
      exact handle_system_init_SEq s s' ⟨.SystemInit, p, t⟩ ⟨.SystemInit, p, t⟩
    | KeyPress =>
      rw [dispatch_keypress_eq s p t, dispatch_keypress_eq s' p t]
      exact ⟨write_str_cong _ hc, hrun⟩
    | Timer =>
      rw [dispatch_timer_eq s p t, dispatch_timer_eq s' p t]
      exact ⟨write_str_cong _ hc, hrun⟩
    | SystemShutdown =>
      rw [dispatch_shutdown_eq s p t, dispatch_shutdown_eq s' p t]
      exact ⟨write_str_cong _ hc, rfl⟩

theorem timerLoop_SEq :
    ∀ n (a b : SysState × List Event), SEq a.1 b.1 → a.2 = b.2 →
      SEq (timerLoop n a).1 (timerLoop n b).1
      ∧ (timerLoop n a).2 = (timerLoop n b).2 := by
  intro n
  induction n with
  | zero => intro a b h ht; exact ⟨h, ht⟩
  | succ n ih =>
    intro a b h ht
    obtain ⟨h1, h2⟩ := ih a b h ht
    refine ⟨?_, ?_⟩
    · show SEq (delay_loop (dispatch_event (timerLoop n a).1 (create_event .Timer 5)))
        (delay_loop (dispatch_event (timerLoop n b).1 (create_event .Timer 5)))
      exact dispatch_event_SEq _ h1
    · show (timerLoop n a).2 ++ [create_event .Timer 5]
        = (timerLoop n b).2 ++ [create_event .Timer 5]
      rw [h2]

theorem kernel_main_SEq (m0 m0' : Mem) :
    SEq (kernel_main m0).state (kernel_main m0').state := by
  show SEq
    (dispatch_event
      (dispatch_event
        (timerLoop 10
          (dispatch_event ⟨VgaConsole.new m0, false⟩ (create_event .SystemInit 10),
            [create_event .SystemInit 10])).1
        (create_event .KeyPress 8))
      (create_event .SystemShutdown 10))
    (dispatch_event
      (dispatch_event
        (timerLoop 10
          (dispatch_event ⟨VgaConsole.new m0', false⟩ (create_event .SystemInit 10),
            [create_event .SystemInit 10])).1
        (create_event .KeyPress 8))
      (create_event .SystemShutdown 10))
  apply dispatch_event_SEq
  apply dispatch_event_SEq
  exact (timerLoop_SEq 10
    (dispatch_event ⟨VgaConsole.new m0, false⟩ (create_event .SystemInit 10),
      [create_event .SystemInit 10])
    (dispatch_event ⟨VgaConsole.new m0', false⟩ (create_event .SystemInit 10),
      [create_event .SystemInit 10])
    (handle_system_init_SEq ⟨VgaConsole.new m0, false⟩ ⟨VgaConsole.new m0', false⟩
      (create_event .SystemInit 10) (create_event .SystemInit 10)) rfl).1

/-- C6: the console/event entry point dispatches exactly Init, then ten
Timer events (each followed by the busy-wait delay), then one KeyPress,
then one Shutdown, and then reaches the halt loop; and the final console
contents (on the 2000 visible cells), cursor and running flag are the same
for every initial state of the text memory — the final buffer is
deterministic, fixed by the banner and marker text. -/
theorem kernel_main_spec (m0 m0' : Mem) :
    (kernel_main m0).trace =
      create_event .SystemInit 10 ::
        (List.replicate 10 (create_event .Timer 5)
          ++ [create_event .KeyPress 8, create_event .SystemShutdown 10])
    ∧ (kernel_main m0).halted = true
    ∧ (kernel_main m0).state.running = (kernel_main m0').state.running
    ∧ (kernel_main m0).state.console.row = (kernel_main m0').state.console.row
    ∧ (kernel_main m0).state.console.col = (kernel_main m0').state.console.col
    ∧ ∀ i, i < 2000 →
        (kernel_main m0).state.console.buffer i
          = (kernel_main m0').state.console.buffer i := by
  obtain ⟨⟨hbuf, hrow, hcol⟩, hrun⟩ := kernel_main_SEq m0 m0'
  exact ⟨rfl, rfl, hrun, hrow, hcol, hbuf⟩

/-- Witness for C6 at two concrete initial memories. -/
theorem kernel_main_spec_witness :
    (kernel_main fun _ => 0).state.console.buffer 0
      = (kernel_main fun _ => 0xFFFF).state.console.buffer 0
    ∧ (kernel_main fun _ => 0).halted = true :=
  ⟨(kernel_main_spec (fun _ => 0) (fun _ => 0xFFFF)).2.2.2.2.2 0 (by omega),
    (kernel_main_spec (fun _ => 0) (fun _ => 0)).2.1⟩

/-! ## Halt loops and panic paths

Both kernels end in `loop { ... }` with no break, and both panic handlers
consist of nothing but such a loop: no unwinding code, no output, no
recovery.  The loops are distinguished only by the instruction their body
issues each iteration, so they are modelled syntactically by that body:
`core::arch::asm!("hlt")` in the scripted sequences' terminal loops and in
the framebuffer kernel's panic handler, `core::hint::spin_loop()` (a
spin-wait hint, not a halt/wait instruction) in the zkernel's panic
handler. -/

/-- The instruction a terminal loop issues on each iteration. -/
inductive LoopInstr where
  | hlt
  | spin_loop_hint
deriving DecidableEq

/-- An unconditional infinite loop, described by its per-iteration body. -/
structure InfiniteLoop where
  body : List LoopInstr
deriving DecidableEq

/-- The halt loop at the end of `kernel_main` in `src/zkernel/src/main.rs`:
`loop { unsafe { core::arch::asm!("hlt"); } }`. -/
def zkernel_halt_loop : InfiniteLoop := ⟨[.hlt]⟩

/-- The halt loop at the end of `_start` in `src/kernel/src/main.rs`. -/
def kernel_halt_loop : InfiniteLoop := ⟨[.hlt]⟩

/-- A panic handler: what it emits before looping, and the loop it enters.
Neither handler in the repository emits anything or unwinds; each is a bare
infinite loop. -/
structure PanicPath where
  diagnostics : List String
  loops : InfiniteLoop
deriving DecidableEq

/-- The zkernel panic handler: `loop { core::hint::spin_loop(); }`. -/
def zkernel_panic : PanicPath := ⟨[], ⟨[.spin_loop_hint]⟩⟩

/-- The framebuffer kernel's panic handler:
`loop { unsafe { core::arch::asm!("hlt"); } }`. -/
def kernel_panic : PanicPath := ⟨[], ⟨[.hlt]⟩⟩

/-- C8 counterexample: the zkernel panic handler's loop issues only a
spin-wait hint (`core::hint::spin_loop()`), not the `hlt` instruction of
the halt loop the scripted sequence enters — so the panic path is not "the
same kind of halt loop" issuing a processor halt/wait instruction each
iteration. -/
theorem zkernel_panic_loop_counterexample :
    zkernel_panic.loops ≠ zkernel_halt_loop := by
  decide

/-- C8 (amended): each panic path's only action is to enter an
unconditional infinite loop, with no diagnostic emission and no recovery;
in the framebuffer kernel that loop is the same `hlt`-issuing halt loop as
the scripted sequence's, while in the zkernel it is a busy-spin loop whose
body is a spin-wait hint rather than a halt/wait instruction. -/
theorem panic_paths_spec :
    zkernel_panic.diagnostics = [] ∧ kernel_panic.diagnostics = []
    ∧ kernel_panic.loops = kernel_halt_loop
    ∧ zkernel_panic.loops.body = [.spin_loop_hint]
    ∧ zkernel_halt_loop.body = [.hlt] :=
  ⟨rfl, rfl, rfl, rfl, rfl⟩

end GrapeOS
